import Mathlib

/-!
Verification of `src/Arm4DOF.py`: a planar 4-segment arm with forward
kinematics (`get_xy`) and an inverse-kinematics solve (`inv_kin`) that
hands an objective and two equality constraints to a sequential
least-squares optimizer (`scipy.optimize.fmin_slsqp`).

Embedding conventions:
  * Python floats are modelled as real numbers (`ℝ`); Python lists as
    `List ℝ`.
  * Python list indexing (`q[0]`, `L[3]`, ...) can raise `IndexError`,
    so functions that index are embedded as `Option`-valued: `none`
    models the exception, `some` the normal return.
  * The external optimizer is not part of this repository; `inv_kin`
    is embedded as producing the full argument record of the
    `fmin_slsqp` call it performs (`SLSQPCall`): every argument the
    Python code passes is a field, and the optional numeric parameters
    it does not pass are `none` (meaning the library default is used).
  * Methods that could mutate the object are embedded with explicit
    state passing: `inv_kin` returns the call record together with the
    post-state of the arm.
-/

noncomputable section

/-- The arm object of `Arm3Link.__init__` (src/Arm4DOF.py lines 8-27):
five attributes, all lists of numbers. -/
structure Arm3Link where
  q : List ℝ
  q0 : List ℝ
  L : List ℝ
  max_angles : List ℝ
  min_angles : List ℝ

/-- `Arm3Link.__init__` (src/Arm4DOF.py lines 8-27). Each of `q`, `q0`,
`L` defaults when the caller passes `None`; `max_angles` and
`min_angles` are always set to fixed constants. The Python body contains
no validation and no `raise`, so the embedding is a total function. -/
def Arm3Link.init (q q0 L : Option (List ℝ)) : Arm3Link :=
  { q := q.getD [Real.pi / 4, Real.pi / 4, 0, 0]
    q0 := q0.getD [Real.pi / 4, Real.pi / 4, 0, 0]
    L := L.getD [1, 1, 1, 1]
    max_angles := [Real.pi, Real.pi, Real.pi, Real.pi]
    min_angles := [0, 0, -Real.pi, -Real.pi] }

/-- `Arm3Link.get_xy` (src/Arm4DOF.py lines 29-50). Reads `L[0]..L[3]`,
`q[0]..q[2]` and `np.sum(q)`; the argument defaults to `self.q` when the
caller passes `None`. `none` models the `IndexError` raised when the
lists are too short. -/
def Arm3Link.get_xy (a : Arm3Link) (qopt : Option (List ℝ)) : Option (ℝ × ℝ) :=
  match a.L, qopt.getD a.q with
  | l0 :: l1 :: l2 :: l3 :: _, q0 :: q1 :: q2 :: qrest =>
      some
        (l0 * Real.cos q0 + l1 * Real.cos (q0 + q1)
            + l2 * Real.cos (q0 + q1 + q2)
            + l3 * Real.cos (List.sum (q0 :: q1 :: q2 :: qrest)),
          l0 * Real.sin q0 + l1 * Real.sin (q0 + q1)
            + l2 * Real.sin (q0 + q1 + q2)
            + l3 * Real.sin (List.sum (q0 :: q1 :: q2 :: qrest)))
  | _, _ => none

/-- Python's built-in `zip` over three lists: truncates to the shortest. -/
def pyZip3 : List ℝ → List ℝ → List ℝ → List (ℝ × ℝ × ℝ)
  | x :: xs, y :: ys, z :: zs => (x, y, z) :: pyZip3 xs ys zs
  | _, _, _ => []

/-- The weight list of `distance_to_default` (src/Arm4DOF.py line 76). -/
def weight : List ℝ := [1, 1, 1.3, 1]

/-- `distance_to_default` (src/Arm4DOF.py lines 64-78), the closure over
`self.q0` made explicit as a parameter: square root of the sum of
`(qi - q0i)**2 * wi` over `zip(q, self.q0, weight)`. Total, since `zip`
truncates. -/
def distance_to_default (q0 q : List ℝ) : ℝ :=
  Real.sqrt (List.sum ((pyZip3 q q0 weight).map
    (fun t => (t.1 - t.2.1) ^ 2 * t.2.2)))

/-- `x_constraint` (src/Arm4DOF.py lines 80-90), the closure over
`self.L` made explicit: recomputes the x coordinate inline and subtracts
`xy[0]`. `none` models the `IndexError` on too-short lists. -/
def x_constraint (L q xy : List ℝ) : Option ℝ :=
  match L, q, xy with
  | l0 :: l1 :: l2 :: l3 :: _, q0 :: q1 :: q2 :: qrest, x0 :: _ =>
      some (l0 * Real.cos q0 + l1 * Real.cos (q0 + q1)
        + l2 * Real.cos (q0 + q1 + q2)
        + l3 * Real.cos (List.sum (q0 :: q1 :: q2 :: qrest)) - x0)
  | _, _, _ => none

/-- `y_constraint` (src/Arm4DOF.py lines 92-102), the closure over
`self.L` made explicit: recomputes the y coordinate inline and subtracts
`xy[1]`. -/
def y_constraint (L q xy : List ℝ) : Option ℝ :=
  match L, q, xy with
  | l0 :: l1 :: l2 :: l3 :: _, q0 :: q1 :: q2 :: qrest, _ :: y0 :: _ =>
      some (l0 * Real.sin q0 + l1 * Real.sin (q0 + q1)
        + l2 * Real.sin (q0 + q1 + q2)
        + l3 * Real.sin (List.sum (q0 :: q1 :: q2 :: qrest)) - y0)
  | _, _, _ => none

/-- The argument record of the one `scipy.optimize.fmin_slsqp` call in
`inv_kin` (src/Arm4DOF.py lines 104-106). Fields mirror the optimizer
parameters the call touches: `func`, `x0`, `eqcons`, `args` and `iprint`
are passed explicitly; `bounds` and `ieqcons` keep the library default
(empty); `iter` and `acc` are `none` when not passed, meaning the
library defaults are in force. Callbacks receive the point and the extra
`args` tuple, as the optimizer applies them. -/
structure SLSQPCall where
  func : List ℝ → List ℝ → ℝ
  x0 : List ℝ
  eqcons : List (List ℝ → List ℝ → Option ℝ)
  bounds : List (ℝ × ℝ)
  ieqcons : List (List ℝ → List ℝ → Option ℝ)
  args : List ℝ
  iter : Option ℕ
  acc : Option ℝ
  iprint : ℤ

/-- `Arm3Link.inv_kin` (src/Arm4DOF.py lines 52-106): builds the three
closures and calls `fmin_slsqp` with `func=distance_to_default`,
`x0=self.q`, `eqcons=[x_constraint, y_constraint]`, `args=(xy,)`,
`iprint=0`, passing nothing else. The method assigns no attribute of
`self`, so the post-state returned by the state-passing embedding is the
input arm unchanged. -/
def Arm3Link.inv_kin (a : Arm3Link) (xy : List ℝ) : SLSQPCall × Arm3Link :=
  ({ func := fun q _args => distance_to_default a.q0 q
     x0 := a.q
     eqcons := [x_constraint a.L, y_constraint a.L]
     bounds := []
     ieqcons := []
     args := xy
     iter := none
     acc := none
     iprint := 0 }, a)

/-- `findJointPos` (src/Arm4DOF.py lines 109-114): constructs
`Arm3Link()` with all defaults and returns `arm.inv_kin([x, y])`. -/
def findJointPos (x y : ℝ) : SLSQPCall :=
  ((Arm3Link.init none none none).inv_kin [x, y]).1

/-- Helper: `get_xy` on a 4-element joint vector, for any `L` with at
least four entries, in cumulative-angle normal form. -/
theorem get_xy_cons_formula (qq q0 ma mi rest : List ℝ) (l0 l1 l2 l3 a b c d : ℝ) :
    Arm3Link.get_xy ⟨qq, q0, l0 :: l1 :: l2 :: l3 :: rest, ma, mi⟩ (some [a, b, c, d]) =
      some (l0 * Real.cos a + l1 * Real.cos (a + b) + l2 * Real.cos (a + b + c)
              + l3 * Real.cos (a + b + c + d),
            l0 * Real.sin a + l1 * Real.sin (a + b) + l2 * Real.sin (a + b + c)
              + l3 * Real.sin (a + b + c + d)) := by
  simp only [Arm3Link.get_xy, Option.getD_some, List.sum_cons, List.sum_nil, add_zero,
    Option.some.injEq, Prod.mk.injEq]
  constructor <;> ring_nf

/-- Claim C1: for a 4-element joint vector and the arm's 4 segment
lengths, `get_xy` returns exactly the cumulative-angle sums
(Σ Lᵢ cos θᵢ, Σ Lᵢ sin θᵢ) with θᵢ the partial sums of the joint
angles. -/
theorem c1_get_xy_formula (qq q0 ma mi : List ℝ) (l0 l1 l2 l3 a b c d : ℝ) :
    Arm3Link.get_xy ⟨qq, q0, [l0, l1, l2, l3], ma, mi⟩ (some [a, b, c, d]) =
      some (l0 * Real.cos a + l1 * Real.cos (a + b) + l2 * Real.cos (a + b + c)
              + l3 * Real.cos (a + b + c + d),
            l0 * Real.sin a + l1 * Real.sin (a + b) + l2 * Real.sin (a + b + c)
              + l3 * Real.sin (a + b + c + d)) :=
  get_xy_cons_formula qq q0 ma mi [] l0 l1 l2 l3 a b c d

/-- Claim C2: the objective equals the weighted Euclidean distance from
the rest pose, sqrt of Σ weight[i]·(q[i] − rest[i])², with the fixed
weight vector [1, 1, 1.3, 1]. -/
theorem c2_distance_to_default_formula (a b c d e f g h : ℝ) :
    distance_to_default [e, f, g, h] [a, b, c, d] =
      Real.sqrt (1 * (a - e) ^ 2 + 1 * (b - f) ^ 2 + 1.3 * (c - g) ^ 2
        + 1 * (d - h) ^ 2) := by
  simp only [distance_to_default, weight, pyZip3, List.map_cons, List.map_nil,
    List.sum_cons, List.sum_nil]
  congr 1
  ring

/-- Claim C3: the inline recomputation inside the constraint closures
coincides with the forward-kinematics residual: for any arm, 4-element
joint vector and target pair, `x_constraint` is `get_xy(q).x − xy[0]`
and `y_constraint` is `get_xy(q).y − xy[1]`. -/
theorem c3_constraints_refine_get_xy (arm : Arm3Link) (a b c d x y : ℝ) :
    x_constraint arm.L [a, b, c, d] [x, y] =
        (arm.get_xy (some [a, b, c, d])).map (fun p => p.1 - x) ∧
      y_constraint arm.L [a, b, c, d] [x, y] =
        (arm.get_xy (some [a, b, c, d])).map (fun p => p.2 - y) := by
  rcases arm with ⟨qa, q0a, La, maa, mia⟩
  rcases La with _ | ⟨l0, La⟩
  · simp [x_constraint, y_constraint, Arm3Link.get_xy]
  rcases La with _ | ⟨l1, La⟩
  · simp [x_constraint, y_constraint, Arm3Link.get_xy]
  rcases La with _ | ⟨l2, La⟩
  · simp [x_constraint, y_constraint, Arm3Link.get_xy]
  rcases La with _ | ⟨l3, La⟩
  · simp [x_constraint, y_constraint, Arm3Link.get_xy]
  · simp [x_constraint, y_constraint, Arm3Link.get_xy]

/-- Claim C4: the optimizer is started at the arm's current pose `q`
(not the rest pose), while the objective measures distance to the rest
pose `q0`; on an arm whose current pose differs from its rest pose the
initial guess differs from the rest pose. -/
theorem c4_inv_kin_initial_guess (a : Arm3Link) (xy : List ℝ) :
    (a.inv_kin xy).1.x0 = a.q ∧
    (a.inv_kin xy).1.func = (fun q _args => distance_to_default a.q0 q) ∧
    ((Arm3Link.init (some [0, 0, 0, 0]) none none).inv_kin xy).1.x0 ≠
      (Arm3Link.init (some [0, 0, 0, 0]) none none).q0 := by
  refine ⟨rfl, rfl, ?_⟩
  have hpi : (0 : ℝ) ≠ Real.pi / 4 := by
    have h4 : (0 : ℝ) < Real.pi / 4 := by positivity
    exact h4.ne
  simp [Arm3Link.inv_kin, Arm3Link.init, hpi]

/-- Claim C5 (amended): construction never fails and never validates
lengths; whatever sequences are passed are stored unchanged, of any
length. -/
theorem c5_init_no_validation (q q0 L : List ℝ) :
    (Arm3Link.init (some q) (some q0) (some L)).q = q ∧
    (Arm3Link.init (some q) (some q0) (some L)).q0 = q0 ∧
    (Arm3Link.init (some q) (some q0) (some L)).L = L :=
  ⟨rfl, rfl, rfl⟩

/-- Claim C5 counterexample: constructing with a 3-element initial-angle
list succeeds (the list is stored as-is); no error is raised even though
the length is not 4. -/
theorem c5_counterexample_init_length3 :
    (Arm3Link.init (some [1, 2, 3]) none none).q = [1, 2, 3] ∧
    (Arm3Link.init (some [1, 2, 3]) none none).q.length ≠ 4 :=
  ⟨rfl, by decide⟩

/-- Claim C6 (amended): `inv_kin` always invokes the optimizer without a
convergence-tolerance or iteration-cap argument, so the library defaults
are in force; nothing in its interface can override them. -/
theorem c6_inv_kin_fixed_tolerances (a : Arm3Link) (xy : List ℝ) :
    (a.inv_kin xy).1.acc = none ∧ (a.inv_kin xy).1.iter = none :=
  ⟨rfl, rfl⟩

/-- Claim C6 counterexample: at a concrete solve, no tolerance and no
iteration cap are passed to the optimizer — they are hard-wired to the
optimizer's defaults, with no configuration hook. -/
theorem c6_counterexample_no_override :
    ((Arm3Link.init none none none).inv_kin [2, 2]).1.acc = none ∧
    ((Arm3Link.init none none none).inv_kin [2, 2]).1.iter = none :=
  ⟨rfl, rfl⟩

/-- Claim C7: `findJointPos` builds the default arm (unit lengths,
initial pose = rest pose = [π/4, π/4, 0, 0]) and returns exactly the
inverse-kinematics solve on it with target [x, y]. -/
theorem c7_findJointPos_default_arm (x y : ℝ) :
    findJointPos x y = ((Arm3Link.init none none none).inv_kin [x, y]).1 ∧
    (Arm3Link.init none none none).L = [1, 1, 1, 1] ∧
    (Arm3Link.init none none none).q = [Real.pi / 4, Real.pi / 4, 0, 0] ∧
    (Arm3Link.init none none none).q0 = [Real.pi / 4, Real.pi / 4, 0, 0] :=
  ⟨rfl, rfl, rfl, rfl⟩

/-- Claim C8: the stored joint limits never influence the solve — two
arms agreeing on `L`, `q`, `q0` produce the same optimizer call whatever
their limits, and no inequality constraints or bounds are passed. -/
theorem c8_inv_kin_ignores_joint_limits (a1 a2 : Arm3Link) (xy : List ℝ)
    (hL : a1.L = a2.L) (hq : a1.q = a2.q) (hq0 : a1.q0 = a2.q0) :
    (a1.inv_kin xy).1 = (a2.inv_kin xy).1 ∧
    (a1.inv_kin xy).1.ieqcons = [] ∧ (a1.inv_kin xy).1.bounds = [] := by
  refine ⟨?_, rfl, rfl⟩
  simp only [Arm3Link.inv_kin, hL, hq, hq0]

/-- Claim C8 witness: two concrete arms that differ in their joint
limits yield the identical optimizer call. -/
theorem c8_inv_kin_ignores_joint_limits_witness :
    (Arm3Link.init none none none).min_angles ≠
      ({ Arm3Link.init none none none with
          min_angles := [0, 0, 0, 0], max_angles := [0, 0, 0, 0] }).min_angles ∧
    ((Arm3Link.init none none none).inv_kin [1, 1]).1 =
      (({ Arm3Link.init none none none with
          min_angles := [0, 0, 0, 0], max_angles := [0, 0, 0, 0] }).inv_kin [1, 1]).1 := by
  refine ⟨?_, (c8_inv_kin_ignores_joint_limits _ _ _ rfl rfl rfl).1⟩
  simp [Arm3Link.init, Real.pi_ne_zero]

/-- Claim C9: forward kinematics is 2π-periodic in each of the four
joints, for every arm and every 4-element joint vector. -/
theorem c9_get_xy_periodic (arm : Arm3Link) (a b c d : ℝ) :
    arm.get_xy (some [a + 2 * Real.pi, b, c, d]) = arm.get_xy (some [a, b, c, d]) ∧
    arm.get_xy (some [a, b + 2 * Real.pi, c, d]) = arm.get_xy (some [a, b, c, d]) ∧
    arm.get_xy (some [a, b, c + 2 * Real.pi, d]) = arm.get_xy (some [a, b, c, d]) ∧
    arm.get_xy (some [a, b, c, d + 2 * Real.pi]) = arm.get_xy (some [a, b, c, d]) := by
  rcases arm with ⟨qa, q0a, La, maa, mia⟩
  rcases La with _ | ⟨l0, La⟩
  · simp [Arm3Link.get_xy]
  rcases La with _ | ⟨l1, La⟩
  · simp [Arm3Link.get_xy]
  rcases La with _ | ⟨l2, La⟩
  · simp [Arm3Link.get_xy]
  rcases La with _ | ⟨l3, La⟩
  · simp [Arm3Link.get_xy]
  refine ⟨?_, ?_, ?_, ?_⟩
  · rw [get_xy_cons_formula, get_xy_cons_formula,
      show a + 2 * Real.pi + b + c + d = a + b + c + d + 2 * Real.pi by ring,
      show a + 2 * Real.pi + b + c = a + b + c + 2 * Real.pi by ring,
      show a + 2 * Real.pi + b = a + b + 2 * Real.pi by ring]
    simp only [Real.cos_add_two_pi, Real.sin_add_two_pi]
  · rw [get_xy_cons_formula, get_xy_cons_formula,
      show a + (b + 2 * Real.pi) + c + d = a + b + c + d + 2 * Real.pi by ring,
      show a + (b + 2 * Real.pi) + c = a + b + c + 2 * Real.pi by ring,
      show a + (b + 2 * Real.pi) = a + b + 2 * Real.pi by ring]
    simp only [Real.cos_add_two_pi, Real.sin_add_two_pi]
  · rw [get_xy_cons_formula, get_xy_cons_formula,
      show a + b + (c + 2 * Real.pi) + d = a + b + c + d + 2 * Real.pi by ring,
      show a + b + (c + 2 * Real.pi) = a + b + c + 2 * Real.pi by ring]
    simp only [Real.cos_add_two_pi, Real.sin_add_two_pi]
  · rw [get_xy_cons_formula, get_xy_cons_formula,
      show a + b + c + (d + 2 * Real.pi) = a + b + c + d + 2 * Real.pi by ring]
    simp only [Real.cos_add_two_pi, Real.sin_add_two_pi]

/-- Claim C10: `inv_kin` leaves the arm unchanged — the post-state
equals the pre-state in every field; in particular the current pose is
never updated with the solve result. -/
theorem c10_inv_kin_frame (a : Arm3Link) (xy : List ℝ) :
    (a.inv_kin xy).2 = a ∧ (a.inv_kin xy).2.q = a.q ∧ (a.inv_kin xy).2.q0 = a.q0 ∧
    (a.inv_kin xy).2.L = a.L ∧ (a.inv_kin xy).2.max_angles = a.max_angles ∧
    (a.inv_kin xy).2.min_angles = a.min_angles :=
  ⟨rfl, rfl, rfl, rfl, rfl, rfl⟩

end
